import Mathlib

set_option autoImplicit false

/-!
Shallow embedding of `src/pywbem_mock/_inmemoryrepository.py` (pywbem):
the classes `InMemoryObjectStore` and `InMemoryRepository`.

Python mutable objects are modelled with an explicit heap: CIM objects live
in heap cells addressed by natural numbers, variables and store entries hold
addresses, and `obj.copy()` is modelled as allocating a fresh cell holding
the same value.  Python exceptions are modelled by an error kind recording
the Python exception type raised (`KeyError`, `ValueError`,
`AssertionError`); message strings are elided since no statement depends on
them.  Operations that mutate state return the final state alongside the
`Except` result, so that "raises and leaves the state unchanged" is a real
statement about the translated control flow.
-/

namespace PywbemRepo

/-- Kind of a raised Python exception. `keyError` is the not-found kind,
`valueError` the already-exists / invalid-argument / not-empty kind, and
`assertionError` the kind of a failed `assert` statement. -/
inductive PyError where
  | keyError
  | valueError
  | assertionError
deriving DecidableEq, Repr

/-- The three CIM object Python classes accepted by `InMemoryObjectStore`
(`CIMClass`, `CIMInstance`, `CIMQualifierDeclaration`). -/
inductive CIMType where
  | cimClass
  | cimInstance
  | cimQualifierDeclaration
deriving DecidableEq, Repr

/-- Modelled from the spec: a CIM object as stored (class, instance or
qualifier declaration).  The pywbem CIM object classes are outside
`src/`; per the spec all that the store consults is the object's Python
class (for the `isinstance` assertion) and its value (copied on read and
write), so an object is its type tag plus an abstract content. -/
structure CIMObject where
  ctype : CIMType
  content : Nat
deriving DecidableEq, Repr

/-- Modelled from the spec: an instance path (model path), "classname +
key-bindings", used as the key of an instance store.  `CIMInstanceName` is
outside `src/`; per the spec instance keys are compared by "exact-match
(structural, including embedded key bindings)". -/
structure InstancePath where
  classname : String
  keybindings : List (String × String)
deriving DecidableEq, Repr

/-- A key of an object store: a name string (classes, qualifier
declarations) or an instance path (instances). -/
inductive StoreKey where
  | strName (s : String)
  | instPath (p : InstancePath)
deriving DecidableEq, Repr

/-! ### Keyed association lists

Python `dict` and `NocaseDict` are modelled as association lists in
insertion order, parameterized by the key-equality test the dictionary
uses.  Assignment replaces in place when the key is present and appends
otherwise; deletion removes the (unique) matching entry. -/

/-- `k in d`: `k` is a key of the list, under equality test `eq`. -/
def containsBy {κ α : Type} (eq : κ → κ → Bool) : List (κ × α) → κ → Bool
  | [], _ => false
  | p :: t, k => eq p.1 k || containsBy eq t k

/-- Value stored under key `k`, under equality test `eq`. -/
def lookupBy {κ α : Type} (eq : κ → κ → Bool) : List (κ × α) → κ → Option α
  | [], _ => none
  | p :: t, k => if eq p.1 k then some p.2 else lookupBy eq t k

/-- Dictionary assignment `d[k] = v`: replace in place, else append. -/
def setBy {κ α : Type} (eq : κ → κ → Bool) : List (κ × α) → κ → α → List (κ × α)
  | [], k, v => [(k, v)]
  | p :: t, k, v => if eq p.1 k then (p.1, v) :: t else p :: setBy eq t k v

/-- Dictionary deletion `del d[k]`: drop the matching entry. -/
def eraseBy {κ α : Type} (eq : κ → κ → Bool) : List (κ × α) → κ → List (κ × α)
  | [], _ => []
  | p :: t, k => if eq p.1 k then t else p :: eraseBy eq t k

/-- Case folding of one character, as a code point: an upper-case letter
folds to its lower-case counterpart. -/
def lowerNat (c : Char) : Nat :=
  if 65 ≤ c.toNat ∧ c.toNat ≤ 90 then c.toNat + 32 else c.toNat

/-- Modelled from the spec: the key comparison of `pywbem._nocasedict.NocaseDict`
(outside `src/`): string keys are compared after folding to a normalized
case ("canonicalizes keys (e.g., fold to a normalized case)"). -/
def nocaseEq (a b : String) : Bool :=
  a.toList.map lowerNat == b.toList.map lowerNat

/-- `NocaseDict` key equality lifted to store keys. -/
def nocaseKeyEq : StoreKey → StoreKey → Bool
  | StoreKey.strName a, StoreKey.strName b => nocaseEq a b
  | StoreKey.instPath a, StoreKey.instPath b => a == b
  | _, _ => false

/-- Plain `dict` key equality: structural equality of the full key. -/
def exactKeyEq (a b : StoreKey) : Bool := a == b

/-! ### Heap -/

/-- The heap of CIM objects: cell `r` holds `objs[r]`; allocation appends. -/
structure Heap where
  objs : List CIMObject
deriving Repr, DecidableEq

/-- Default object returned for a dangling address (never reached for
addresses produced by allocation). -/
def defaultObj : CIMObject := ⟨CIMType.cimClass, 0⟩

/-- Read the object at address `r`. -/
def Heap.read (h : Heap) (r : Nat) : CIMObject :=
  h.objs.getD r defaultObj

/-- Allocate a fresh cell holding `v`; returns the new heap and the address. -/
def Heap.alloc (h : Heap) (v : CIMObject) : Heap × Nat :=
  (⟨h.objs ++ [v]⟩, h.objs.length)

/-- Mutate the object at address `r` (models in-place mutation of a Python
object through a reference). -/
def Heap.put (h : Heap) (r : Nat) (v : CIMObject) : Heap :=
  ⟨h.objs.set r v⟩

/-! ### InMemoryObjectStore -/

/-- `InMemoryObjectStore`: `cim_object_type` is the accepted CIM object
class, `data` the backing dictionary mapping names to (addresses of)
objects.  `__init__` picks a `NocaseDict` for `CIMClass` and
`CIMQualifierDeclaration` and a plain `dict` for `CIMInstance`; here the
choice of dictionary is recorded by `cim_object_type` and realized by
`keyEq` below. -/
structure InMemoryObjectStore where
  cim_object_type : CIMType
  data : List (StoreKey × Nat)
deriving Repr, DecidableEq

/-- The key equality of the dictionary chosen by `__init__`:
`NocaseDict` (case-insensitive) for classes and qualifier declarations,
plain `dict` (exact) for instances. -/
def InMemoryObjectStore.keyEq (s : InMemoryObjectStore) : StoreKey → StoreKey → Bool :=
  match s.cim_object_type with
  | CIMType.cimClass => nocaseKeyEq
  | CIMType.cimQualifierDeclaration => nocaseKeyEq
  | CIMType.cimInstance => exactKeyEq

/-- `InMemoryObjectStore.__init__(cim_object_type)`: empty dictionary. -/
def InMemoryObjectStore.init (t : CIMType) : InMemoryObjectStore :=
  ⟨t, []⟩

/-- `exists(name)`: `name in self._data`. -/
def InMemoryObjectStore.existsKey (s : InMemoryObjectStore) (name : StoreKey) : Bool :=
  containsBy s.keyEq s.data name

/-- `get(name, copy=True)`: return (the address of) the object under
`name`, a fresh copy when `copy`; raise `KeyError` when absent. -/
def InMemoryObjectStore.get (s : InMemoryObjectStore) (h : Heap) (name : StoreKey)
    (copy : Bool) : Except PyError Nat × Heap :=
  match lookupBy s.keyEq s.data name with
  | some r =>
      if copy then
        let a := h.alloc (h.read r)
        (Except.ok a.2, a.1)
      else (Except.ok r, h)
  | none => (Except.error PyError.keyError, h)

/-- `create(name, cim_object)`: assert the object's class, raise
`ValueError` when the key is present, else store a copy. -/
def InMemoryObjectStore.create (s : InMemoryObjectStore) (h : Heap) (name : StoreKey)
    (objRef : Nat) : Except PyError Unit × InMemoryObjectStore × Heap :=
  if (h.read objRef).ctype ≠ s.cim_object_type then
    (Except.error PyError.assertionError, s, h)
  else if containsBy s.keyEq s.data name then
    (Except.error PyError.valueError, s, h)
  else
    let a := h.alloc (h.read objRef)
    (Except.ok (), ⟨s.cim_object_type, setBy s.keyEq s.data name a.2⟩, a.1)

/-- `update(name, cim_object)`: assert the object's class, raise `KeyError`
when the key is absent, else replace with a copy. -/
def InMemoryObjectStore.update (s : InMemoryObjectStore) (h : Heap) (name : StoreKey)
    (objRef : Nat) : Except PyError Unit × InMemoryObjectStore × Heap :=
  if (h.read objRef).ctype ≠ s.cim_object_type then
    (Except.error PyError.assertionError, s, h)
  else if ¬ containsBy s.keyEq s.data name then
    (Except.error PyError.keyError, s, h)
  else
    let a := h.alloc (h.read objRef)
    (Except.ok (), ⟨s.cim_object_type, setBy s.keyEq s.data name a.2⟩, a.1)

/-- `delete(name)`: remove the entry, raise `KeyError` when absent. -/
def InMemoryObjectStore.delete (s : InMemoryObjectStore) (h : Heap) (name : StoreKey) :
    Except PyError Unit × InMemoryObjectStore × Heap :=
  if containsBy s.keyEq s.data name then
    (Except.ok (), ⟨s.cim_object_type, eraseBy s.keyEq s.data name⟩, h)
  else (Except.error PyError.keyError, s, h)

/-- `len()`: number of entries. -/
def InMemoryObjectStore.len (s : InMemoryObjectStore) : Nat :=
  s.data.length

/-! ### InMemoryRepository -/

/-- The three object stores of one namespace self._repository[ns], whose
fixed keys are the strings classes, instances and qualifiers. -/
structure NamespaceStores where
  classes : InMemoryObjectStore
  instances : InMemoryObjectStore
  qualifiers : InMemoryObjectStore
deriving Repr, DecidableEq

/-- `InMemoryRepository`: the top-level `NocaseDict` from namespace names
to their three object stores, in insertion order. -/
structure InMemoryRepository where
  repository : List (String × NamespaceStores)
deriving Repr, DecidableEq

/-- Python `namespace.strip('/')` on the character list: drop leading and
trailing `/`. -/
def pyStripL (l : List Char) : List Char :=
  ((l.dropWhile fun c => c == '/').reverse.dropWhile fun c => c == '/').reverse

/-- Python `namespace.strip('/')`: drop leading and trailing `/`. -/
def pyStrip (s : String) : String :=
  String.mk (pyStripL s.toList)

/-- The three fresh empty stores `add_namespace` installs. -/
def emptyNamespaceStores : NamespaceStores :=
  ⟨InMemoryObjectStore.init CIMType.cimClass,
   InMemoryObjectStore.init CIMType.cimInstance,
   InMemoryObjectStore.init CIMType.cimQualifierDeclaration⟩

/-- `validate_namespace(namespace)`: `ValueError` when `None`, strip
slashes, `KeyError` when the name is not a namespace key. -/
def validate_namespace (repo : InMemoryRepository) (ns : Option String) :
    Except PyError Unit :=
  match ns with
  | none => Except.error PyError.valueError
  | some s =>
      if containsBy nocaseEq repo.repository (pyStrip s) then Except.ok ()
      else Except.error PyError.keyError

/-- `add_namespace(namespace)`: `ValueError` when `None`, strip slashes,
`ValueError` when present, else install three empty stores. -/
def add_namespace (repo : InMemoryRepository) (ns : Option String) :
    Except PyError Unit × InMemoryRepository :=
  match ns with
  | none => (Except.error PyError.valueError, repo)
  | some s =>
      let s2 := pyStrip s
      if containsBy nocaseEq repo.repository s2 then
        (Except.error PyError.valueError, repo)
      else
        (Except.ok (), ⟨setBy nocaseEq repo.repository s2 emptyNamespaceStores⟩)

/-- `remove_namespace(namespace)`: validate, then `ValueError` when any of
the three stores is non-empty, else delete the namespace entry. -/
def remove_namespace (repo : InMemoryRepository) (ns : Option String) :
    Except PyError Unit × InMemoryRepository :=
  match validate_namespace repo ns with
  | Except.error e => (Except.error e, repo)
  | Except.ok () =>
    match ns with
    | none => (Except.error PyError.valueError, repo)
    | some s =>
      let s2 := pyStrip s
      match lookupBy nocaseEq repo.repository s2 with
      | none => (Except.error PyError.keyError, repo)
      | some st =>
        if st.classes.len ≠ 0 ∨ st.qualifiers.len ≠ 0 ∨ st.instances.len ≠ 0 then
          (Except.error PyError.valueError, repo)
        else
          (Except.ok (), ⟨eraseBy nocaseEq repo.repository s2⟩)

/-- The `namespaces` property: `list(self._repository)`, the keys in
insertion order. -/
def namespaces (repo : InMemoryRepository) : List String :=
  repo.repository.map Prod.fst

/-- `get_class_repo(namespace)`: `ValueError` when `None`, strip, validate,
return the class store. -/
def get_class_repo (repo : InMemoryRepository) (ns : Option String) :
    Except PyError InMemoryObjectStore :=
  match ns with
  | none => Except.error PyError.valueError
  | some s =>
      let s2 := pyStrip s
      match validate_namespace repo (some s2) with
      | Except.error e => Except.error e
      | Except.ok () =>
          match lookupBy nocaseEq repo.repository s2 with
          | some st => Except.ok st.classes
          | none => Except.error PyError.keyError

/-- `get_instance_repo(namespace)`: as `get_class_repo`, instance store. -/
def get_instance_repo (repo : InMemoryRepository) (ns : Option String) :
    Except PyError InMemoryObjectStore :=
  match ns with
  | none => Except.error PyError.valueError
  | some s =>
      let s2 := pyStrip s
      match validate_namespace repo (some s2) with
      | Except.error e => Except.error e
      | Except.ok () =>
          match lookupBy nocaseEq repo.repository s2 with
          | some st => Except.ok st.instances
          | none => Except.error PyError.keyError

/-- `get_qualifier_repo(namespace)`: as `get_class_repo`, qualifier store. -/
def get_qualifier_repo (repo : InMemoryRepository) (ns : Option String) :
    Except PyError InMemoryObjectStore :=
  match ns with
  | none => Except.error PyError.valueError
  | some s =>
      let s2 := pyStrip s
      match validate_namespace repo (some s2) with
      | Except.error e => Except.error e
      | Except.ok () =>
          match lookupBy nocaseEq repo.repository s2 with
          | some st => Except.ok st.qualifiers
          | none => Except.error PyError.keyError

/-! ### Helper lemmas -/

theorem nocaseKeyEq_refl (k : StoreKey) : nocaseKeyEq k k = true := by
  cases k <;> simp [nocaseKeyEq, nocaseEq]

theorem exactKeyEq_refl (k : StoreKey) : exactKeyEq k k = true := by
  simp [exactKeyEq]

theorem keyEq_refl (s : InMemoryObjectStore) (k : StoreKey) : s.keyEq k k = true := by
  unfold InMemoryObjectStore.keyEq
  cases s.cim_object_type <;> simp [nocaseKeyEq_refl, exactKeyEq_refl]

theorem lookupBy_eq_none_iff {κ α : Type} (eq : κ → κ → Bool) (l : List (κ × α)) (k : κ) :
    lookupBy eq l k = none ↔ containsBy eq l k = false := by
  induction l with
  | nil => simp [lookupBy, containsBy]
  | cons p t ih => by_cases h : eq p.1 k <;> simp [lookupBy, containsBy, h, ih]

theorem lookupBy_isSome_of_contains {κ α : Type} (eq : κ → κ → Bool) (l : List (κ × α))
    (k : κ) (hc : containsBy eq l k = true) : ∃ v, lookupBy eq l k = some v := by
  induction l with
  | nil => simp [containsBy] at hc
  | cons p t ih =>
      by_cases h : eq p.1 k
      · exact ⟨p.2, by simp [lookupBy, h]⟩
      · simp [containsBy, h] at hc
        obtain ⟨v, hv⟩ := ih hc
        exact ⟨v, by simp [lookupBy, h, hv]⟩

theorem lookupBy_setBy {κ α : Type} (eq : κ → κ → Bool) (l : List (κ × α)) (k : κ) (v : α)
    (hr : eq k k = true) : lookupBy eq (setBy eq l k v) k = some v := by
  induction l with
  | nil => simp [setBy, lookupBy, hr]
  | cons p t ih => by_cases h : eq p.1 k <;> simp [setBy, lookupBy, h, ih]

theorem Heap.read_alloc_self (h : Heap) (v : CIMObject) :
    (h.alloc v).1.read (h.alloc v).2 = v := by
  simp [Heap.alloc, Heap.read, List.getD_append_right]

theorem Heap.read_alloc_lt (h : Heap) (v : CIMObject) (r : Nat) (hr : r < h.objs.length) :
    (h.alloc v).1.read r = h.read r := by
  simp [Heap.alloc, Heap.read, List.getD, List.getElem?_append_left hr]

theorem Heap.alloc_len (h : Heap) (v : CIMObject) :
    (h.alloc v).1.objs.length = h.objs.length + 1 := by
  simp [Heap.alloc]

theorem Heap.read_put_ne (h : Heap) (r : Nat) (v : CIMObject) (a : Nat) (hne : a ≠ r) :
    (h.put r v).read a = h.read a := by
  simp [Heap.put, Heap.read, List.getD, List.getElem?_set_ne (fun he => hne he.symm)]

theorem keyEq_mk (s : InMemoryObjectStore) (d : List (StoreKey × Nat)) :
    (⟨s.cim_object_type, d⟩ : InMemoryObjectStore).keyEq = s.keyEq := rfl

theorem containsBy_of_lookupBy {κ α : Type} (eq : κ → κ → Bool) (l : List (κ × α))
    (k : κ) (v : α) (h : lookupBy eq l k = some v) : containsBy eq l k = true := by
  induction l with
  | nil => simp [lookupBy] at h
  | cons p t ih =>
      by_cases hp : eq p.1 k = true
      · simp [containsBy, hp]
      · simp [lookupBy, hp] at h
        simp [containsBy, hp, ih h]

theorem setBy_of_not_contains {κ α : Type} (eq : κ → κ → Bool) (l : List (κ × α))
    (k : κ) (v : α) (h : containsBy eq l k = false) : setBy eq l k v = l ++ [(k, v)] := by
  induction l with
  | nil => rfl
  | cons p t ih =>
      simp [containsBy, Bool.or_eq_false_iff] at h
      simp [setBy, h.1, ih h.2]

theorem containsBy_append_single {κ α : Type} (eq : κ → κ → Bool) (l : List (κ × α))
    (k k2 : κ) (v : α) :
    containsBy eq (l ++ [(k, v)]) k2 = (containsBy eq l k2 || eq k k2) := by
  induction l with
  | nil => simp [containsBy]
  | cons p t ih => simp [containsBy, ih, Bool.or_assoc]

theorem containsBy_true_of_mem {κ α : Type} (eq : κ → κ → Bool) (l : List (κ × α))
    (k : κ) (p : κ × α) (hp : p ∈ l) (he : eq p.1 k = true) :
    containsBy eq l k = true := by
  induction l with
  | nil => simp at hp
  | cons q t ih =>
      rcases List.mem_cons.mp hp with h1 | h1
      · subst h1; simp [containsBy, he]
      · simp [containsBy, ih h1]

theorem exists_mem_of_containsBy {κ α : Type} (eq : κ → κ → Bool) (l : List (κ × α))
    (k : κ) (hc : containsBy eq l k = true) : ∃ p ∈ l, eq p.1 k = true := by
  induction l with
  | nil => simp [containsBy] at hc
  | cons q t ih =>
      by_cases hq : eq q.1 k = true
      · exact ⟨q, List.mem_cons_self q t, hq⟩
      · simp [containsBy, hq] at hc
        obtain ⟨p, hp, he⟩ := ih hc
        exact ⟨p, List.mem_cons_of_mem q hp, he⟩

/-- Key uniqueness invariant of a dictionary's association list: no key
occurs twice (up to the dictionary's key equality). -/
def uniqueKeysBy {κ α : Type} (eq : κ → κ → Bool) : List (κ × α) → Bool
  | [] => true
  | p :: t => !containsBy eq t p.1 && uniqueKeysBy eq t

theorem nocaseEq_symm (a b : String) (h : nocaseEq a b = true) : nocaseEq b a = true := by
  simp [nocaseEq] at *
  exact h.symm

theorem nocaseEq_trans (a b c : String) (h1 : nocaseEq a b = true)
    (h2 : nocaseEq b c = true) : nocaseEq a c = true := by
  simp [nocaseEq] at *
  exact h1.trans h2

theorem containsBy_eraseBy {κ α : Type} (eq : κ → κ → Bool)
    (hsymm : ∀ a b, eq a b = true → eq b a = true)
    (htrans : ∀ a b c, eq a b = true → eq b c = true → eq a c = true)
    (l : List (κ × α)) (k : κ) (hu : uniqueKeysBy eq l = true) :
    containsBy eq (eraseBy eq l k) k = false := by
  induction l with
  | nil => simp [eraseBy, containsBy]
  | cons p t ih =>
      simp [uniqueKeysBy, Bool.and_eq_true] at hu
      by_cases hp : eq p.1 k = true
      · simp [eraseBy, hp]
        by_contra hcon
        simp at hcon
        obtain ⟨q, hq, he⟩ := exists_mem_of_containsBy eq t k hcon
        have hqp : eq q.1 p.1 = true := htrans q.1 k p.1 he (hsymm p.1 k hp)
        have := containsBy_true_of_mem eq t p.1 q hq hqp
        simp [this] at hu
      · simp [eraseBy, containsBy, hp]
        exact ih hu.2

theorem forall_map_fst_of_containsBy_false {κ α : Type} (eq : κ → κ → Bool)
    (l : List (κ × α)) (k : κ) (hc : containsBy eq l k = false) :
    ∀ m ∈ l.map Prod.fst, eq m k = false := by
  induction l with
  | nil => simp
  | cons p t ih =>
      simp [containsBy, Bool.or_eq_false_iff] at hc
      intro m hm
      rcases List.mem_cons.mp hm with h1 | h1
      · subst h1; exact hc.1
      · exact ih hc.2 m h1

theorem dropWhile_head_false {α : Type} (p : α → Bool) (l : List α) (x : α)
    (h : (l.dropWhile p).head? = some x) : p x = false := by
  induction l with
  | nil => simp [List.dropWhile] at h
  | cons a t ih =>
      by_cases hp : p a = true
      · rw [List.dropWhile_cons_of_pos hp] at h
        exact ih h
      · rw [List.dropWhile_cons_of_neg hp] at h
        simp at h
        subst h
        simpa using hp

theorem dropWhile_prefix_decomp {α : Type} (p : α → Bool) (l : List α) :
    ∃ t, l = t ++ l.dropWhile p := by
  induction l with
  | nil => exact ⟨[], rfl⟩
  | cons a t ih =>
      by_cases hp : p a = true
      · obtain ⟨u, hu⟩ := ih
        refine ⟨a :: u, ?_⟩
        rw [List.dropWhile_cons_of_pos hp]
        simpa using hu
      · exact ⟨[], by rw [List.dropWhile_cons_of_neg hp]; rfl⟩

theorem dropWhile_eq_self_of_head {α : Type} (p : α → Bool) (l : List α)
    (h : ∀ x, l.head? = some x → p x = false) : l.dropWhile p = l := by
  cases l with
  | nil => rfl
  | cons a t =>
      have ha := h a rfl
      rw [List.dropWhile_cons_of_neg (by simp [ha])]

theorem pyStripL_head (l : List Char) (x : Char) (h : (pyStripL l).head? = some x) :
    (x == '/') = false := by
  obtain ⟨t, ht⟩ :=
    dropWhile_prefix_decomp (fun c => c == '/') ((l.dropWhile fun c => c == '/').reverse)
  have hM2 : l.dropWhile (fun c => c == '/')
      = pyStripL l ++ t.reverse := by
    have h2 := congrArg List.reverse ht
    simpa [pyStripL, List.reverse_append] using h2
  cases hrev : pyStripL l with
  | nil => rw [hrev] at h; simp at h
  | cons a u =>
      rw [hrev] at h
      simp at h
      subst h
      have hMh : (l.dropWhile fun c => c == '/').head? = some a := by
        rw [hM2, hrev]; rfl
      exact dropWhile_head_false (fun c => c == '/') l a hMh

theorem pyStripL_last (l : List Char) (x : Char) (h : (pyStripL l).getLast? = some x) :
    (x == '/') = false := by
  unfold pyStripL at h
  rw [List.getLast?_reverse] at h
  exact dropWhile_head_false (fun c => c == '/') _ x h

theorem pyStripL_idem (l : List Char) : pyStripL (pyStripL l) = pyStripL l := by
  have h1 : (pyStripL l).dropWhile (fun c => c == '/') = pyStripL l :=
    dropWhile_eq_self_of_head _ _ (fun x hx => pyStripL_head l x hx)
  have h2 : (pyStripL l).reverse.dropWhile (fun c => c == '/') = (pyStripL l).reverse := by
    apply dropWhile_eq_self_of_head
    intro x hx
    rw [List.head?_reverse] at hx
    exact pyStripL_last l x hx
  show ((((pyStripL l).dropWhile fun c => c == '/').reverse.dropWhile
    fun c => c == '/').reverse) = pyStripL l
  rw [h1, h2, List.reverse_reverse]

theorem pyStrip_idem (s : String) : pyStrip (pyStrip s) = pyStrip s :=
  congrArg String.mk (pyStripL_idem s.toList)

/-! ### Concrete inputs used by witnesses -/

/-- A fresh class store. -/
def wStore : InMemoryObjectStore := InMemoryObjectStore.init CIMType.cimClass

/-- A heap holding one `CIMClass` object at address 0. -/
def wHeap : Heap := ⟨[⟨CIMType.cimClass, 5⟩]⟩

/-- A concrete name key. -/
def wName : StoreKey := StoreKey.strName "Foo"

/-! ### Claims -/

/-- Claim C2: for every object store and every name, `get`, `update` and
`delete` raise the NotFound kind (`KeyError`) exactly when the name is
absent, and `create` raises the AlreadyExists kind (`ValueError`) exactly
when the name is present; in the non-error case `create` and `update`
store a copy of the given object (a fresh cell, distinct from the
argument's, holding an equal value). -/
theorem C2_store_error_contract (s : InMemoryObjectStore) (h : Heap) (name : StoreKey)
    (objRef : Nat) (copy : Bool)
    (hval : objRef < h.objs.length)
    (hty : (h.read objRef).ctype = s.cim_object_type) :
    ((s.get h name copy).1 = Except.error PyError.keyError ↔ s.existsKey name = false) ∧
    ((s.update h name objRef).1 = Except.error PyError.keyError ↔ s.existsKey name = false) ∧
    ((s.delete h name).1 = Except.error PyError.keyError ↔ s.existsKey name = false) ∧
    ((s.create h name objRef).1 = Except.error PyError.valueError ↔ s.existsKey name = true) ∧
    (s.existsKey name = false →
      ∃ r2, lookupBy s.keyEq (s.create h name objRef).2.1.data name = some r2 ∧
        r2 ≠ objRef ∧ (s.create h name objRef).2.2.read r2 = h.read objRef) ∧
    (s.existsKey name = true →
      ∃ r2, lookupBy s.keyEq (s.update h name objRef).2.1.data name = some r2 ∧
        r2 ≠ objRef ∧ (s.update h name objRef).2.2.read r2 = h.read objRef) := by
  by_cases hc : containsBy s.keyEq s.data name = true
  · obtain ⟨r, hr⟩ := lookupBy_isSome_of_contains s.keyEq s.data name hc
    refine ⟨?_, ?_, ?_, ?_, ?_, ?_⟩
    · cases copy <;>
        simp [InMemoryObjectStore.get, InMemoryObjectStore.existsKey, hr, hc]
    · simp [InMemoryObjectStore.update, InMemoryObjectStore.existsKey, hty, hc]
    · simp [InMemoryObjectStore.delete, InMemoryObjectStore.existsKey, hc]
    · simp [InMemoryObjectStore.create, InMemoryObjectStore.existsKey, hty, hc]
    · intro hfalse
      simp [InMemoryObjectStore.existsKey, hc] at hfalse
    · intro _
      refine ⟨h.objs.length, ?_, ?_, ?_⟩
      · simp [InMemoryObjectStore.update, hty, hc]
        exact lookupBy_setBy s.keyEq s.data name h.objs.length (keyEq_refl s name)
      · omega
      · simp [InMemoryObjectStore.update, hty, hc]
        exact Heap.read_alloc_self h (h.read objRef)
  · have hc2 : containsBy s.keyEq s.data name = false := by
      simpa using hc
    have hl : lookupBy s.keyEq s.data name = none :=
      (lookupBy_eq_none_iff s.keyEq s.data name).mpr hc2
    refine ⟨?_, ?_, ?_, ?_, ?_, ?_⟩
    · cases copy <;>
        simp [InMemoryObjectStore.get, InMemoryObjectStore.existsKey, hl, hc2]
    · simp [InMemoryObjectStore.update, InMemoryObjectStore.existsKey, hty, hc2]
    · simp [InMemoryObjectStore.delete, InMemoryObjectStore.existsKey, hc2]
    · simp [InMemoryObjectStore.create, InMemoryObjectStore.existsKey, hty, hc2]
    · intro _
      refine ⟨h.objs.length, ?_, ?_, ?_⟩
      · simp [InMemoryObjectStore.create, hty, hc2]
        exact lookupBy_setBy s.keyEq s.data name h.objs.length (keyEq_refl s name)
      · omega
      · simp [InMemoryObjectStore.create, hty, hc2]
        exact Heap.read_alloc_self h (h.read objRef)
    · intro htrue
      simp [InMemoryObjectStore.existsKey, hc2] at htrue

/-- Witness for C2 at a concrete input: on the fresh store, `get` of the
absent name `Foo` raises `KeyError`. -/
theorem C2_store_error_contract_witness :
    (0 < wHeap.objs.length ∧ (wHeap.read 0).ctype = wStore.cim_object_type) ∧
    (wStore.get wHeap wName true).1 = Except.error PyError.keyError :=
  ⟨⟨by decide, by decide⟩,
   ((C2_store_error_contract wStore wHeap wName 0 true (by decide) (by decide)).1).mpr
     (by decide)⟩

/-- Claim C1: after `create(name, O)` succeeds on a store where `name` was
absent, `get(name)` (with `copy` defaulting to true) returns an object
equal to `O`, and mutating the object returned by `get` never changes what
a subsequent `get(name)` on the same store returns: the store hands out
copies, never its internal cell. -/
theorem C1_roundtrip_copy (s : InMemoryObjectStore) (h : Heap) (name : StoreKey)
    (objRef : Nat)
    (hval : objRef < h.objs.length)
    (hty : (h.read objRef).ctype = s.cim_object_type)
    (habs : s.existsKey name = false) :
    ∃ s2 h2 r h3,
      s.create h name objRef = (Except.ok (), s2, h2) ∧
      s2.get h2 name true = (Except.ok r, h3) ∧
      h3.read r = h.read objRef ∧
      ∀ v, ∃ r2 h5,
        s2.get (h3.put r v) name true = (Except.ok r2, h5) ∧
        h5.read r2 = h.read objRef := by
  have hc2 : containsBy s.keyEq s.data name = false := habs
  have hlook : lookupBy s.keyEq (setBy s.keyEq s.data name h.objs.length) name
      = some h.objs.length :=
    lookupBy_setBy s.keyEq s.data name h.objs.length (keyEq_refl s name)
  have hread : (h.alloc (h.read objRef)).1.read h.objs.length = h.read objRef :=
    Heap.read_alloc_self h (h.read objRef)
  have hlen2 : (h.alloc (h.read objRef)).1.objs.length = h.objs.length + 1 :=
    Heap.alloc_len h (h.read objRef)
  refine ⟨⟨s.cim_object_type, setBy s.keyEq s.data name h.objs.length⟩,
      (h.alloc (h.read objRef)).1, h.objs.length + 1,
      ((h.alloc (h.read objRef)).1.alloc (h.read objRef)).1, ?_, ?_, ?_, ?_⟩
  · simp [InMemoryObjectStore.create, hty, hc2, Heap.alloc]
  · simp only [InMemoryObjectStore.get, keyEq_mk, hlook]
    rw [hread]
    simp [Heap.alloc]
  · rw [← hlen2]
    exact Heap.read_alloc_self (h.alloc (h.read objRef)).1 (h.read objRef)
  · intro v
    have hne : h.objs.length ≠ h.objs.length + 1 := by omega
    have hput : (((h.alloc (h.read objRef)).1.alloc (h.read objRef)).1.put
        (h.objs.length + 1) v).read h.objs.length
        = ((h.alloc (h.read objRef)).1.alloc (h.read objRef)).1.read h.objs.length :=
      Heap.read_put_ne _ (h.objs.length + 1) v h.objs.length hne
    have hlt : h.objs.length < (h.alloc (h.read objRef)).1.objs.length := by omega
    have hr3 : ((h.alloc (h.read objRef)).1.alloc (h.read objRef)).1.read h.objs.length
        = h.read objRef := by
      rw [Heap.read_alloc_lt (h.alloc (h.read objRef)).1 (h.read objRef) h.objs.length hlt]
      exact hread
    have hlen4 : ((((h.alloc (h.read objRef)).1.alloc (h.read objRef)).1.put
        (h.objs.length + 1) v)).objs.length = h.objs.length + 2 := by
      simp [Heap.put, Heap.alloc]
    refine ⟨h.objs.length + 2,
      (((((h.alloc (h.read objRef)).1.alloc (h.read objRef)).1.put
        (h.objs.length + 1) v)).alloc (h.read objRef)).1, ?_, ?_⟩
    · simp only [InMemoryObjectStore.get, keyEq_mk, hlook]
      rw [hput, hr3, ← hlen4]
      simp [Heap.alloc]
    · rw [← hlen4]
      exact Heap.read_alloc_self _ (h.read objRef)

/-- Witness for C1 at a concrete input: creating `Foo` in the fresh class
store and reading it back returns the created object's value. -/
theorem C1_roundtrip_copy_witness :
    (0 < wHeap.objs.length ∧ (wHeap.read 0).ctype = wStore.cim_object_type ∧
      wStore.existsKey wName = false) ∧
    (∃ s2 h2 r h3,
      wStore.create wHeap wName 0 = (Except.ok (), s2, h2) ∧
      s2.get h2 wName true = (Except.ok r, h3) ∧
      h3.read r = wHeap.read 0 ∧
      ∀ v, ∃ r2 h5,
        s2.get (h3.put r v) wName true = (Except.ok r2, h5) ∧
        h5.read r2 = wHeap.read 0) :=
  ⟨⟨by decide, by decide, by decide⟩,
   C1_roundtrip_copy wStore wHeap wName 0 (by decide) (by decide) (by decide)⟩

/-- A heap holding one `CIMInstance` object at address 0 (wrong type for
the class store `wStore`). -/
def wHeapI : Heap := ⟨[⟨CIMType.cimInstance, 7⟩]⟩

/-- A repository holding one namespace `root` with empty stores. -/
def wRepo : InMemoryRepository := ⟨[("root", emptyNamespaceStores)]⟩

/-- Claim C10: every failing store operation leaves the store unchanged:
whatever error `create`, `update` or `delete` raises (`AlreadyExists`,
NotFound or the failed assert), the returned store and heap equal the
initial ones. -/
theorem C10_error_atomicity (s : InMemoryObjectStore) (h : Heap) (name : StoreKey)
    (objRef : Nat) :
    (∀ e, (s.create h name objRef).1 = Except.error e →
      (s.create h name objRef).2 = (s, h)) ∧
    (∀ e, (s.update h name objRef).1 = Except.error e →
      (s.update h name objRef).2 = (s, h)) ∧
    (∀ e, (s.delete h name).1 = Except.error e →
      (s.delete h name).2 = (s, h)) := by
  refine ⟨?_, ?_, ?_⟩
  · intro e he
    by_cases h1 : (h.read objRef).ctype = s.cim_object_type
    · by_cases h2 : containsBy s.keyEq s.data name = true
      · simp [InMemoryObjectStore.create, h1, h2]
      · simp [InMemoryObjectStore.create, h1, h2] at he
    · simp [InMemoryObjectStore.create, h1]
  · intro e he
    by_cases h1 : (h.read objRef).ctype = s.cim_object_type
    · by_cases h2 : containsBy s.keyEq s.data name = true
      · simp [InMemoryObjectStore.update, h1, h2] at he
      · simp [InMemoryObjectStore.update, h1, h2]
    · simp [InMemoryObjectStore.update, h1]
  · intro e he
    by_cases h2 : containsBy s.keyEq s.data name = true
    · simp [InMemoryObjectStore.delete, h2] at he
    · simp [InMemoryObjectStore.delete, h2]

/-- Witness for C10 at a concrete input: `delete` of the absent name `Foo`
raises and leaves the store and heap unchanged. -/
theorem C10_error_atomicity_witness :
    (wStore.delete wHeap wName).1 = Except.error PyError.keyError ∧
    (wStore.delete wHeap wName).2 = (wStore, wHeap) :=
  ⟨rfl, (C10_error_atomicity wStore wHeap wName 0).2.2 PyError.keyError rfl⟩

/-- Claim C8: passing an object that is not an instance of the store's CIM
object type to `create` or `update` fails with the failed-`assert` kind
(the realization of the spec's InvalidParameter kind for this case, a kind
distinct from NotFound and AlreadyExists), and store and heap are not
modified. -/
theorem C8_wrong_type (s : InMemoryObjectStore) (h : Heap) (name : StoreKey) (objRef : Nat)
    (hty : (h.read objRef).ctype ≠ s.cim_object_type) :
    s.create h name objRef = (Except.error PyError.assertionError, s, h) ∧
    s.update h name objRef = (Except.error PyError.assertionError, s, h) ∧
    PyError.assertionError ≠ PyError.keyError ∧
    PyError.assertionError ≠ PyError.valueError := by
  refine ⟨?_, ?_, by simp, by simp⟩ <;>
    simp [InMemoryObjectStore.create, InMemoryObjectStore.update, hty]

/-- Witness for C8 at a concrete input: creating a `CIMInstance` object in
the class store fails the assert and changes nothing. -/
theorem C8_wrong_type_witness :
    (wHeapI.read 0).ctype ≠ wStore.cim_object_type ∧
    wStore.create wHeapI wName 0 = (Except.error PyError.assertionError, wStore, wHeapI) :=
  ⟨by decide, (C8_wrong_type wStore wHeapI wName 0 (by decide)).1⟩

/-- Counterexample to claim C6 as stated: `validate_namespace` on a `None`
namespace raises `ValueError` (the invalid-argument kind), not the
`KeyError` NotFound kind that an absent name raises. -/
theorem C6_counterexample :
    validate_namespace ⟨[]⟩ none = Except.error PyError.valueError ∧
    validate_namespace ⟨[]⟩ none ≠ Except.error PyError.keyError :=
  ⟨rfl, by simp [validate_namespace]⟩

/-- Claim C6 (amended): `validate_namespace` fails with the
invalid-argument `ValueError` kind when the namespace argument is `None`,
fails with the NotFound `KeyError` kind when the normalized namespace is
not a namespace of the repository, and succeeds otherwise. -/
theorem C6_validate_namespace (repo : InMemoryRepository) (ns : String) :
    validate_namespace repo none = Except.error PyError.valueError ∧
    (containsBy nocaseEq repo.repository (pyStrip ns) = false →
      validate_namespace repo (some ns) = Except.error PyError.keyError) ∧
    (containsBy nocaseEq repo.repository (pyStrip ns) = true →
      validate_namespace repo (some ns) = Except.ok ()) := by
  refine ⟨rfl, ?_, ?_⟩ <;> intro hc <;> simp [validate_namespace, hc]

/-- Witness for C6 (amended) at a concrete input: on `wRepo`, validating
the present namespace `root` succeeds. -/
theorem C6_validate_namespace_witness :
    containsBy nocaseEq wRepo.repository (pyStrip "root") = true ∧
    validate_namespace wRepo (some "root") = Except.ok () := by
  refine ⟨by decide, (C6_validate_namespace wRepo "root").2.2 (by decide)⟩

/-- Claim C5: `add_namespace(ns)` strips leading and trailing `/` from `ns`
(the normalized name has no `/` at either end), raises the AlreadyExists
`ValueError` kind when the normalized name is already a namespace, and
otherwise appends the namespace with three empty object stores (classes,
instances, qualifier declarations), each of length 0. -/
theorem C5_add_namespace (repo : InMemoryRepository) (ns : String) :
    (∀ x, (pyStrip ns).toList.head? = some x → x ≠ '/') ∧
    (∀ x, (pyStrip ns).toList.getLast? = some x → x ≠ '/') ∧
    (containsBy nocaseEq repo.repository (pyStrip ns) = true →
      add_namespace repo (some ns) = (Except.error PyError.valueError, repo)) ∧
    (containsBy nocaseEq repo.repository (pyStrip ns) = false →
      add_namespace repo (some ns)
        = (Except.ok (), ⟨repo.repository ++ [(pyStrip ns, emptyNamespaceStores)]⟩) ∧
      emptyNamespaceStores.classes.cim_object_type = CIMType.cimClass ∧
      emptyNamespaceStores.instances.cim_object_type = CIMType.cimInstance ∧
      emptyNamespaceStores.qualifiers.cim_object_type = CIMType.cimQualifierDeclaration ∧
      emptyNamespaceStores.classes.len = 0 ∧
      emptyNamespaceStores.instances.len = 0 ∧
      emptyNamespaceStores.qualifiers.len = 0) := by
  refine ⟨?_, ?_, ?_, ?_⟩
  · intro x hx
    have := pyStripL_head ns.toList x hx
    simpa using this
  · intro x hx
    have := pyStripL_last ns.toList x hx
    simpa using this
  · intro hc
    simp [add_namespace, hc]
  · intro hc
    refine ⟨?_, rfl, rfl, rfl, rfl, rfl, rfl⟩
    simp [add_namespace, hc]
    exact setBy_of_not_contains nocaseEq repo.repository (pyStrip ns)
      emptyNamespaceStores hc

/-- Witness for C5 at a concrete input: adding `/root/test/` to the empty
repository installs the stripped name with empty stores. -/
theorem C5_add_namespace_witness :
    containsBy nocaseEq (⟨[]⟩ : InMemoryRepository).repository (pyStrip "/root/test/")
      = false ∧
    add_namespace ⟨[]⟩ (some "/root/test/")
      = (Except.ok (), ⟨[(pyStrip "/root/test/", emptyNamespaceStores)]⟩) :=
  ⟨by decide, ((C5_add_namespace ⟨[]⟩ "/root/test/").2.2.2 (by decide)).1⟩

/-- Claim C4: `remove_namespace(ns)` raises the NotFound `KeyError` kind
when `ns` is absent; raises the not-empty `ValueError` kind whenever any
of the namespace's three stores has length > 0; otherwise it succeeds and
`ns` no longer appears in the `namespaces` property. -/
theorem C4_remove_namespace (repo : InMemoryRepository) (ns : String) (st : NamespaceStores)
    (hu : uniqueKeysBy nocaseEq repo.repository = true) :
    (containsBy nocaseEq repo.repository (pyStrip ns) = false →
      remove_namespace repo (some ns) = (Except.error PyError.keyError, repo)) ∧
    (lookupBy nocaseEq repo.repository (pyStrip ns) = some st →
      (st.classes.len ≠ 0 ∨ st.instances.len ≠ 0 ∨ st.qualifiers.len ≠ 0 →
        remove_namespace repo (some ns) = (Except.error PyError.valueError, repo)) ∧
      (st.classes.len = 0 ∧ st.instances.len = 0 ∧ st.qualifiers.len = 0 →
        remove_namespace repo (some ns)
          = (Except.ok (), ⟨eraseBy nocaseEq repo.repository (pyStrip ns)⟩) ∧
        ∀ m ∈ namespaces (remove_namespace repo (some ns)).2,
          nocaseEq m (pyStrip ns) = false)) := by
  constructor
  · intro hc
    simp [remove_namespace, validate_namespace, hc]
  · intro hl
    have hc : containsBy nocaseEq repo.repository (pyStrip ns) = true :=
      containsBy_of_lookupBy nocaseEq repo.repository (pyStrip ns) st hl
    have hrem : remove_namespace repo (some ns)
        = if st.classes.len ≠ 0 ∨ st.qualifiers.len ≠ 0 ∨ st.instances.len ≠ 0 then
            (Except.error PyError.valueError, repo)
          else (Except.ok (), ⟨eraseBy nocaseEq repo.repository (pyStrip ns)⟩) := by
      simp [remove_namespace, validate_namespace, hc, hl]
    constructor
    · intro hgt
      have hC : st.classes.len ≠ 0 ∨ st.qualifiers.len ≠ 0 ∨ st.instances.len ≠ 0 := by
        rcases hgt with hg | hg | hg
        · exact Or.inl hg
        · exact Or.inr (Or.inr hg)
        · exact Or.inr (Or.inl hg)
      rw [hrem, if_pos hC]
    · intro hz
      have hC : ¬ (st.classes.len ≠ 0 ∨ st.qualifiers.len ≠ 0 ∨ st.instances.len ≠ 0) := by
        simp [hz.1, hz.2.1, hz.2.2]
      rw [hrem, if_neg hC]
      refine ⟨rfl, ?_⟩
      have hgone : containsBy nocaseEq (eraseBy nocaseEq repo.repository (pyStrip ns))
          (pyStrip ns) = false :=
        containsBy_eraseBy nocaseEq nocaseEq_symm nocaseEq_trans repo.repository
          (pyStrip ns) hu
      exact forall_map_fst_of_containsBy_false nocaseEq _ (pyStrip ns) hgone

/-- Witness for C4 at a concrete input: removing the empty namespace `root`
from `wRepo` succeeds and `root` disappears from `namespaces`. -/
theorem C4_remove_namespace_witness :
    uniqueKeysBy nocaseEq wRepo.repository = true ∧
    remove_namespace wRepo (some "root")
      = (Except.ok (), ⟨eraseBy nocaseEq wRepo.repository (pyStrip "root")⟩) :=
  ⟨by decide,
   (((C4_remove_namespace wRepo "root" emptyNamespaceStores (by decide)).2
     (by decide)).2 ⟨rfl, rfl, rfl⟩).1⟩

/-- Claim C7: `get_class_repo`, `get_instance_repo` and
`get_qualifier_repo` return the corresponding store of an existing
namespace; on a `None` namespace argument they fail with the
invalid-argument `ValueError` kind, on a non-existent namespace with the
NotFound `KeyError` kind — two distinguishable error kinds. -/
theorem C7_store_accessors (repo : InMemoryRepository) (ns ns2 : String)
    (st : NamespaceStores)
    (hl : lookupBy nocaseEq repo.repository (pyStrip ns) = some st)
    (habs : containsBy nocaseEq repo.repository (pyStrip ns2) = false) :
    get_class_repo repo (some ns) = Except.ok st.classes ∧
    get_instance_repo repo (some ns) = Except.ok st.instances ∧
    get_qualifier_repo repo (some ns) = Except.ok st.qualifiers ∧
    get_class_repo repo none = Except.error PyError.valueError ∧
    get_instance_repo repo none = Except.error PyError.valueError ∧
    get_qualifier_repo repo none = Except.error PyError.valueError ∧
    get_class_repo repo (some ns2) = Except.error PyError.keyError ∧
    get_instance_repo repo (some ns2) = Except.error PyError.keyError ∧
    get_qualifier_repo repo (some ns2) = Except.error PyError.keyError ∧
    PyError.valueError ≠ PyError.keyError := by
  have hc : containsBy nocaseEq repo.repository (pyStrip ns) = true :=
    containsBy_of_lookupBy nocaseEq repo.repository (pyStrip ns) st hl
  refine ⟨?_, ?_, ?_, rfl, rfl, rfl, ?_, ?_, ?_, by simp⟩ <;>
    simp [get_class_repo, get_instance_repo, get_qualifier_repo,
      validate_namespace, pyStrip_idem, hc, hl, habs]

/-- Witness for C7 at a concrete input: the class store of namespace
`root` of `wRepo` is returned, and the `None` argument fails with
`ValueError`. -/
theorem C7_store_accessors_witness :
    (lookupBy nocaseEq wRepo.repository (pyStrip "root") = some emptyNamespaceStores ∧
     containsBy nocaseEq wRepo.repository (pyStrip "other") = false) ∧
    get_class_repo wRepo (some "root") = Except.ok emptyNamespaceStores.classes :=
  ⟨⟨by decide, by decide⟩,
   (C7_store_accessors wRepo "root" "other" emptyNamespaceStores
     (by decide) (by decide)).1⟩

/-- Claim C9: namespace names are compared case-insensitively: after
`add_namespace(N)` succeeds, `validate_namespace` and the store accessors
succeed for any case variant of `N`, and `add_namespace` of a case variant
fails with the AlreadyExists `ValueError` kind, leaving the repository
unchanged. -/
theorem C9_namespace_nocase (repo : InMemoryRepository) (nsn v : String)
    (hvar : nocaseEq (pyStrip v) (pyStrip nsn) = true)
    (habs : containsBy nocaseEq repo.repository (pyStrip nsn) = false) :
    ∃ repo2,
      add_namespace repo (some nsn) = (Except.ok (), repo2) ∧
      validate_namespace repo2 (some v) = Except.ok () ∧
      (∃ st2, lookupBy nocaseEq repo2.repository (pyStrip v) = some st2 ∧
        get_class_repo repo2 (some v) = Except.ok st2.classes ∧
        get_instance_repo repo2 (some v) = Except.ok st2.instances ∧
        get_qualifier_repo repo2 (some v) = Except.ok st2.qualifiers) ∧
      add_namespace repo2 (some v) = (Except.error PyError.valueError, repo2) := by
  have hc2 : containsBy nocaseEq
      (repo.repository ++ [(pyStrip nsn, emptyNamespaceStores)]) (pyStrip v) = true := by
    rw [containsBy_append_single]
    simp [nocaseEq_symm (pyStrip v) (pyStrip nsn) hvar]
  refine ⟨⟨repo.repository ++ [(pyStrip nsn, emptyNamespaceStores)]⟩, ?_, ?_, ?_, ?_⟩
  · simp [add_namespace, habs]
    exact setBy_of_not_contains nocaseEq repo.repository (pyStrip nsn)
      emptyNamespaceStores habs
  · simp [validate_namespace, hc2]
  · obtain ⟨stv, hstv⟩ := lookupBy_isSome_of_contains nocaseEq _ (pyStrip v) hc2
    refine ⟨stv, hstv, ?_, ?_, ?_⟩ <;>
      simp [get_class_repo, get_instance_repo, get_qualifier_repo,
        validate_namespace, pyStrip_idem, hc2, hstv]
  · simp [add_namespace, hc2]

/-- Witness for C9 at a concrete input: after adding `Root` to the empty
repository, adding `ROOT` fails with the AlreadyExists kind. -/
theorem C9_namespace_nocase_witness :
    (nocaseEq (pyStrip "ROOT") (pyStrip "Root") = true ∧
     containsBy nocaseEq (⟨[]⟩ : InMemoryRepository).repository (pyStrip "Root") = false) ∧
    ∃ repo2,
      add_namespace ⟨[]⟩ (some "Root") = (Except.ok (), repo2) ∧
      validate_namespace repo2 (some "ROOT") = Except.ok () ∧
      (∃ st2, lookupBy nocaseEq repo2.repository (pyStrip "ROOT") = some st2 ∧
        get_class_repo repo2 (some "ROOT") = Except.ok st2.classes ∧
        get_instance_repo repo2 (some "ROOT") = Except.ok st2.instances ∧
        get_qualifier_repo repo2 (some "ROOT") = Except.ok st2.qualifiers) ∧
      add_namespace repo2 (some "ROOT") = (Except.error PyError.valueError, repo2) :=
  ⟨⟨by decide, by decide⟩,
   C9_namespace_nocase ⟨[]⟩ "Root" "ROOT" (by decide) (by decide)⟩

/-- A fresh instance store. -/
def wStoreI : InMemoryObjectStore := InMemoryObjectStore.init CIMType.cimInstance

/-- Claim C3: class stores and qualifier-declaration stores compare name
keys case-insensitively — after `create(N, O)`, `exists`/`get` succeed for
any case variant of `N` and `create` of any case variant fails with the
AlreadyExists kind; instance stores compare keys by exact structural
equality of the full instance path — inserting path `p` makes exactly `p`
present and leaves the membership of every other path (in particular a
case variant of `p`) unchanged. -/
theorem C3_key_comparison (s : InMemoryObjectStore) (h : Heap) (objRef : Nat)
    (nm vr : String) (p q : InstancePath)
    (hval : objRef < h.objs.length)
    (hty : (h.read objRef).ctype = s.cim_object_type)
    (hvar : nocaseEq vr nm = true)
    (hne : q ≠ p) :
    ((s.cim_object_type = CIMType.cimClass ∨
        s.cim_object_type = CIMType.cimQualifierDeclaration) →
      s.existsKey (StoreKey.strName nm) = false →
      ∃ s2 h2,
        s.create h (StoreKey.strName nm) objRef = (Except.ok (), s2, h2) ∧
        s2.existsKey (StoreKey.strName vr) = true ∧
        (∃ r h3, s2.get h2 (StoreKey.strName vr) true = (Except.ok r, h3)) ∧
        (s2.create h2 (StoreKey.strName vr) objRef).1 = Except.error PyError.valueError) ∧
    (s.cim_object_type = CIMType.cimInstance →
      s.existsKey (StoreKey.instPath p) = false →
      ∃ s2 h2,
        s.create h (StoreKey.instPath p) objRef = (Except.ok (), s2, h2) ∧
        s2.existsKey (StoreKey.instPath p) = true ∧
        s2.existsKey (StoreKey.instPath q) = s.existsKey (StoreKey.instPath q)) := by
  constructor
  · intro hdisj habs
    have hkeq : s.keyEq = nocaseKeyEq := by
      rcases hdisj with h1 | h1 <;> simp [InMemoryObjectStore.keyEq, h1]
    have hc : containsBy s.keyEq s.data (StoreKey.strName nm) = false := habs
    have hsets : setBy s.keyEq s.data (StoreKey.strName nm) h.objs.length
        = s.data ++ [(StoreKey.strName nm, h.objs.length)] :=
      setBy_of_not_contains s.keyEq s.data (StoreKey.strName nm) h.objs.length hc
    have hKv : nocaseKeyEq (StoreKey.strName nm) (StoreKey.strName vr) = true := by
      simpa [nocaseKeyEq] using nocaseEq_symm vr nm hvar
    have hex : containsBy s.keyEq (s.data ++ [(StoreKey.strName nm, h.objs.length)])
        (StoreKey.strName vr) = true := by
      rw [containsBy_append_single]
      simp [hkeq, hKv]
    obtain ⟨r, hr⟩ := lookupBy_isSome_of_contains s.keyEq
      (s.data ++ [(StoreKey.strName nm, h.objs.length)]) (StoreKey.strName vr) hex
    have hrd : (h.alloc (h.read objRef)).1.read objRef = h.read objRef :=
      Heap.read_alloc_lt h (h.read objRef) objRef hval
    refine ⟨⟨s.cim_object_type, setBy s.keyEq s.data (StoreKey.strName nm) h.objs.length⟩,
        (h.alloc (h.read objRef)).1, ?_, ?_, ?_, ?_⟩
    · simp [InMemoryObjectStore.create, hty, hc, Heap.alloc]
    · show containsBy _ _ _ = true
      rw [keyEq_mk, hsets]
      exact hex
    · refine ⟨((h.alloc (h.read objRef)).1.alloc
          ((h.alloc (h.read objRef)).1.read r)).2,
        ((h.alloc (h.read objRef)).1.alloc
          ((h.alloc (h.read objRef)).1.read r)).1, ?_⟩
      simp [InMemoryObjectStore.get, keyEq_mk, hsets, hr]
    · simp [InMemoryObjectStore.create, keyEq_mk, hsets, hrd, hty, hex]
  · intro hinst habs
    have hkeq : s.keyEq = exactKeyEq := by
      simp [InMemoryObjectStore.keyEq, hinst]
    have hc : containsBy s.keyEq s.data (StoreKey.instPath p) = false := habs
    have hsets : setBy s.keyEq s.data (StoreKey.instPath p) h.objs.length
        = s.data ++ [(StoreKey.instPath p, h.objs.length)] :=
      setBy_of_not_contains s.keyEq s.data (StoreKey.instPath p) h.objs.length hc
    refine ⟨⟨s.cim_object_type, setBy s.keyEq s.data (StoreKey.instPath p) h.objs.length⟩,
        (h.alloc (h.read objRef)).1, ?_, ?_, ?_⟩
    · simp [InMemoryObjectStore.create, hty, hc, Heap.alloc]
    · show containsBy _ _ _ = true
      rw [keyEq_mk, hsets, containsBy_append_single]
      simp [hkeq, exactKeyEq]
    · show containsBy _ _ _ = containsBy _ _ _
      rw [keyEq_mk, hsets, containsBy_append_single]
      have hpq : exactKeyEq (StoreKey.instPath p) (StoreKey.instPath q) = false := by
        simp [exactKeyEq]
        exact fun he => hne (he.symm)
      simp [hkeq, hpq]

/-- Witness for C3 at concrete inputs: in a class store, `Foo` created and
`FOO` found / rejected as duplicate; in an instance store, creating path
`(Foo, Id=1)` leaves the case-variant path `(FOO, Id=1)` absent. -/
theorem C3_key_comparison_witness :
    (∃ s2 h2,
        wStore.create wHeap (StoreKey.strName "Foo") 0 = (Except.ok (), s2, h2) ∧
        s2.existsKey (StoreKey.strName "FOO") = true ∧
        (∃ r h3, s2.get h2 (StoreKey.strName "FOO") true = (Except.ok r, h3)) ∧
        (s2.create h2 (StoreKey.strName "FOO") 0).1 = Except.error PyError.valueError) ∧
    (∃ s2 h2,
        wStoreI.create wHeapI (StoreKey.instPath ⟨"Foo", [("Id", "1")]⟩) 0
          = (Except.ok (), s2, h2) ∧
        s2.existsKey (StoreKey.instPath ⟨"Foo", [("Id", "1")]⟩) = true ∧
        s2.existsKey (StoreKey.instPath ⟨"FOO", [("Id", "1")]⟩)
          = wStoreI.existsKey (StoreKey.instPath ⟨"FOO", [("Id", "1")]⟩)) :=
  ⟨(C3_key_comparison wStore wHeap 0 "Foo" "FOO" ⟨"A", []⟩ ⟨"B", []⟩ (by decide)
      (by decide) (by decide) (by decide)).1 (Or.inl rfl) (by decide),
   (C3_key_comparison wStoreI wHeapI 0 "Foo" "FOO" ⟨"Foo", [("Id", "1")]⟩
      ⟨"FOO", [("Id", "1")]⟩ (by decide) (by decide) (by decide) (by decide)).2
     rfl (by decide)⟩

end PywbemRepo
